import Mathlib

/-!
Verification of the `clif-builder-util` compilation orchestration layer.

The Rust module under verification (`src/lib.rs`, `Compiler<M: Module>`) sits on
top of an external code-generation backend.  The backend itself (symbol
declaration, data/function definition, IR verification) is an external
collaborator; its behaviour at the boundary is modelled here from the spec's
description of that boundary.  Everything in the `Compiler` layer itself is a
direct shallow embedding of the Rust source: Rust `&mut self` methods become
functions returning the updated `Compiler`; `anyhow::Result` becomes
`Except CompileErr`; a Rust panic (the `self.vars[name]` map index) becomes the
`.panic` outcome, distinct from a returned error value.
-/

namespace ClifBuilder

/-- Linkage classification of a declared symbol (`cranelift_module::Linkage`). -/
inductive Linkage where
  | local_
  | import_
  | export_
deriving DecidableEq, Repr

/-- IR value types (`cranelift::prelude::Type`), with their byte sizes. -/
inductive CType where
  | i8
  | i16
  | i32
  | i64
  | f32
  | f64
deriving DecidableEq, Repr

/-- Byte size of a value type. -/
def CType.bytes : CType → Nat
  | .i8 => 1
  | .i16 => 2
  | .i32 => 4
  | .i64 => 8
  | .f32 => 4
  | .f64 => 8

/-- Memory access flags (`MemFlags`); `MemFlags::new()` sets none. -/
structure MemFlags where
  notrap : Bool
  aligned : Bool
deriving DecidableEq, Repr

/-- `MemFlags::new()`: no special memory-access flags. -/
def MemFlags.new : MemFlags := ⟨false, false⟩

/-- One ABI parameter of a signature (`AbiParam::new`). -/
structure AbiParam where
  value_type : CType
deriving DecidableEq, Repr

/-- A function signature: ordered parameters plus returns. -/
structure Signature where
  params : List AbiParam
  returns : List AbiParam
deriving DecidableEq, Repr

/-- The signature construction done in `compile_func` / `import_func`:
`make_signature`, then push each parameter, then push the optional return. -/
def make_sig (params : List CType) (ret : Option CType) : Signature :=
  { params := params.map AbiParam.mk
    returns :=
      match ret with
      | none => []
      | some r => [AbiParam.mk r] }

/-- The error taxonomy of the layer (error values carried by `anyhow::Result`). -/
inductive CompileErr where
  | duplicateSymbol
  | unknownVariable
  | backendDeclaration
  | backendDefinition
  | verification
  | other (msg : String)
deriving DecidableEq, Repr

/-- Outcome of an operation that has no `Result` channel in the source but may
panic: `ok` is a normal return, `err` a surfaced error value (unused by the
source for these operations, present so that the spec's error claims are
statable), `panic` a Rust panic aborting execution. -/
inductive VOut (α : Type) where
  | ok (a : α)
  | err (e : CompileErr)
  | panic
deriving DecidableEq

/-- IR instructions emitted through the builder, restricted to the shapes this
layer emits or that its callbacks need. -/
inductive Instr where
  | globalValue (ty : CType) (gv : Nat)
  | load (ty : CType) (flags : MemFlags) (ptr : Nat) (offset : Int)
  | store (flags : MemFlags) (val : Nat) (ptr : Nat) (offset : Int)
  | call (fref : Nat) (args : List Nat)
  | iconst (ty : CType) (imm : Nat)
  | jump (blk : Nat)
  | ret (args : List Nat)
deriving DecidableEq, Repr

/-- Block terminators. -/
def Instr.isTerminator : Instr → Bool
  | .jump _ => true
  | .ret _ => true
  | _ => false

/-- Replace the element at index `i` (no-op when out of range). -/
def updateAt (l : List α) (i : Nat) (g : α → α) : List α :=
  match l, i with
  | [], _ => []
  | a :: t, 0 => g a :: t
  | a :: t, i + 1 => a :: updateAt t i g

/-- A basic block: its instruction list. -/
structure Block where
  instrs : List Instr
deriving DecidableEq, Repr

/-- A block is terminated when its last instruction is a terminator. -/
def Block.terminated (b : Block) : Bool :=
  match b.instrs.getLast? with
  | some i => i.isTerminator
  | none => false

/-- The in-progress function (`ctx.func` together with its `FunctionBuilder`):
blocks, the current insertion block, the per-body tables of bound data symbols
(`GlobalValue`s) and bound functions (`FuncRef`s), the next SSA value id, and
the seal / finalize flags.  Function parameters are pre-bound as the SSA values
`0 .. sig.params.length - 1`. -/
structure FuncState where
  fname : String
  sig : Signature
  blocks : List Block
  cur : Nat
  dataRefs : List Nat
  funcRefs : List Nat
  nextValue : Nat
  allSealed : Bool
  finalized : Bool
deriving DecidableEq, Repr

/-- `Function::with_name_signature` + `FunctionBuilder::new`: a fresh body. -/
def FuncState.new (name : String) (sig : Signature) : FuncState :=
  { fname := name
    sig := sig
    blocks := []
    cur := 0
    dataRefs := []
    funcRefs := []
    nextValue := sig.params.length
    allSealed := false
    finalized := false }

/-- `builder.create_block()`: append an empty block, return its index. -/
def FuncState.create_block (f : FuncState) : Nat × FuncState :=
  (f.blocks.length, { f with blocks := f.blocks ++ [⟨[]⟩] })

/-- `builder.switch_to_block(b)`. -/
def FuncState.switch_to_block (f : FuncState) (b : Nat) : FuncState :=
  { f with cur := b }

/-- Emit a non-value-producing instruction into the current block. -/
def FuncState.emit (f : FuncState) (i : Instr) : FuncState :=
  { f with blocks := updateAt f.blocks f.cur (fun b => ⟨b.instrs ++ [i]⟩) }

/-- Emit a value-producing instruction; returns the fresh SSA value id. -/
def FuncState.emitV (f : FuncState) (i : Instr) : Nat × FuncState :=
  (f.nextValue, { f.emit i with nextValue := f.nextValue + 1 })

/-- `builder.seal_all_blocks()`. -/
def FuncState.seal_all_blocks (f : FuncState) : FuncState :=
  { f with allSealed := true }

/-- `builder.finalize()`. -/
def FuncState.finalize (f : FuncState) : FuncState :=
  { f with finalized := true }

/-- A backend function declaration record. -/
structure FuncDecl where
  name : String
  linkage : Linkage
  sig : Signature
deriving DecidableEq, Repr

/-- A backend data declaration record (`declare_data(name, linkage, writable, tls)`). -/
structure DataDecl where
  name : String
  linkage : Linkage
  writable : Bool
  tls : Bool
deriving DecidableEq, Repr

/-- Modelled from the spec: the external backend module capability.  Symbol
ids (`FuncId` / `DataId`) are positions in the declaration lists; defined-sets
and data contents are tracked separately.  `ptrTy` is the target
configuration's pointer type. -/
structure Backend where
  ptrTy : CType
  funcDecls : List FuncDecl
  funcDefined : List Nat
  dataDecls : List DataDecl
  dataDefined : List (Nat × List Nat)
deriving DecidableEq, Repr

/-- A backend with no declared symbols. -/
def Backend.empty (ptrTy : CType) : Backend :=
  ⟨ptrTy, [], [], [], []⟩

/-- First index at which `key` maps an element to `k`. -/
def findIdxBy (key : α → String) : List α → String → Option Nat
  | [], _ => none
  | a :: t, k => if key a = k then some 0 else (findIdxBy key t k).map (· + 1)

/-- Index of the declaration carrying `name`, if any. -/
def Backend.findFuncIdx (b : Backend) (name : String) : Option Nat :=
  findIdxBy FuncDecl.name b.funcDecls name

/-- Index of the data declaration carrying `name`, if any. -/
def Backend.findDataIdx (b : Backend) (name : String) : Option Nat :=
  findIdxBy DataDecl.name b.dataDecls name

/-- Modelled from the spec: `Module::declare_function`.  Re-declaring an
existing name with a compatible signature while the function is not yet
defined returns the existing handle (idempotent re-import); an incompatible
signature or an already defined name fails with `DuplicateSymbolError`;
otherwise a fresh handle is appended. -/
def Backend.declare_function (b : Backend) (name : String) (linkage : Linkage)
    (sig : Signature) : Backend × Except CompileErr Nat :=
  match b.findFuncIdx name with
  | some i =>
      match b.funcDecls.get? i with
      | some d =>
          if d.sig = sig ∧ i ∉ b.funcDefined then (b, .ok i)
          else (b, .error .duplicateSymbol)
      | none => (b, .error .backendDeclaration)
  | none =>
      ({ b with funcDecls := b.funcDecls ++ [⟨name, linkage, sig⟩] },
        .ok b.funcDecls.length)

/-- Modelled from the spec: `Module::define_function` — commit a declared,
not-yet-defined function.  The finalized body is accepted as-is (verification
has already run); committing an unknown or already defined handle fails. -/
def Backend.define_function (b : Backend) (id : Nat) : Backend × Except CompileErr Unit :=
  if id ∈ b.funcDefined then (b, .error .backendDefinition)
  else if id < b.funcDecls.length then
    ({ b with funcDefined := id :: b.funcDefined }, .ok ())
  else (b, .error .backendDefinition)

/-- Modelled from the spec: `Module::declare_data` — a name already declared
to the backend fails with `DuplicateSymbolError`, otherwise a fresh data
handle is appended. -/
def Backend.declare_data (b : Backend) (name : String) (linkage : Linkage)
    (writable : Bool) (tls : Bool) : Backend × Except CompileErr Nat :=
  match b.findDataIdx name with
  | some _ => (b, .error .duplicateSymbol)
  | none =>
      ({ b with dataDecls := b.dataDecls ++ [⟨name, linkage, writable, tls⟩] },
        .ok b.dataDecls.length)

/-- Modelled from the spec: `Module::define_data` — define the contents of a
declared, not-yet-defined data symbol. -/
def Backend.define_data (b : Backend) (id : Nat) (contents : List Nat) :
    Backend × Except CompileErr Unit :=
  match b.dataDefined.lookup id with
  | some _ => (b, .error .backendDefinition)
  | none =>
      if id < b.dataDecls.length then
        ({ b with dataDefined := (id, contents) :: b.dataDefined }, .ok ())
      else (b, .error .backendDefinition)

/-- Modelled from the spec: `verifier::verify_function` — structural validation
of the finalized IR; fails with `VerificationError` when some block lacks a
terminator. -/
def verify_function (f : FuncState) : Except CompileErr Unit :=
  if f.blocks.all Block.terminated then .ok () else .error .verification

/-- Association-list insert with replace semantics (`HashMap::insert`). -/
def insertA (l : List (String × Nat)) (k : String) (v : Nat) : List (String × Nat) :=
  (k, v) :: l.filter (fun p => p.1 != k)

/-- The `Compiler<M>` state: the exclusively owned backend module, the two
monotonic counters, the variable store and the function table. -/
structure Compiler where
  module : Backend
  data_id_counter : Nat
  var_id_counter : Nat
  vars : List (String × Nat)
  functions : List (String × Nat)
deriving DecidableEq, Repr

/-- `Compiler::new`. -/
def Compiler.new (module : Backend) : Compiler :=
  { module := module
    data_id_counter := 0
    var_id_counter := 0
    vars := []
    functions := [] }

/-- One pipeline step of `compile_func`, for the ordering trace. -/
inductive Event where
  | declareFunction (name : String) (linkage : Linkage) (sig : Signature)
  | invokeBody
  | sealAllBlocks
  | finalizeFunction
  | verifyFunction
  | defineFunction (id : Nat)
  | registerFunction (name : String) (id : Nat)
deriving DecidableEq, Repr

/-- The body-construction callback `F: Fn(&mut Compiler<M>, &mut
FunctionBuilder, FuncId) -> Result<()>`: it always hands back the (possibly
mutated) compiler and builder, plus success or an error. -/
abbrev BodyFn := Compiler → FuncState → Nat → Compiler × FuncState × Except CompileErr Unit

/-- `Compiler::compile_func`, instrumented with the trace of the pipeline's
own backend steps (the callback's internal actions are not traced). -/
def compile_func_tr (c : Compiler) (name : String) (params : List CType)
    (ret : Option CType) (linkage : Linkage) (body : BodyFn) :
    Compiler × List Event × Except CompileErr Nat :=
  let sig := make_sig params ret
  match c.module.declare_function name linkage sig with
  | (m, .error e) =>
      ({ c with module := m }, [.declareFunction name linkage sig], .error e)
  | (m, .ok func_id) =>
      let c := { c with module := m }
      let f := FuncState.new name sig
      match body c f func_id with
      | (c, _, .error e) =>
          (c, [.declareFunction name linkage sig, .invokeBody], .error e)
      | (c, f, .ok ()) =>
          let f := f.seal_all_blocks
          let f := f.finalize
          match verify_function f with
          | .error e =>
              (c, [.declareFunction name linkage sig, .invokeBody, .sealAllBlocks,
                   .finalizeFunction, .verifyFunction], .error e)
          | .ok () =>
              match c.module.define_function func_id with
              | (m, .error e) =>
                  ({ c with module := m },
                   [.declareFunction name linkage sig, .invokeBody, .sealAllBlocks,
                    .finalizeFunction, .verifyFunction, .defineFunction func_id],
                   .error e)
              | (m, .ok ()) =>
                  ({ c with
                      module := m
                      functions := insertA c.functions name func_id },
                   [.declareFunction name linkage sig, .invokeBody, .sealAllBlocks,
                    .finalizeFunction, .verifyFunction, .defineFunction func_id,
                    .registerFunction name func_id],
                   .ok func_id)

/-- `Compiler::compile_func` (the traced pipeline with the trace dropped). -/
def compile_func (c : Compiler) (name : String) (params : List CType)
    (ret : Option CType) (linkage : Linkage) (body : BodyFn) :
    Compiler × Except CompileErr Nat :=
  let r := compile_func_tr c name params ret linkage body
  (r.1, r.2.2)

/-- A builder-local SSA variable handle (`cranelift::prelude::Variable`). -/
structure Variable where
  index : Nat
deriving DecidableEq, Repr

/-- `Compiler::new_var`: hand out the current variable counter and bump it. -/
def Compiler.new_var (c : Compiler) : Variable × Compiler :=
  let id := c.var_id_counter
  (Variable.mk id, { c with var_id_counter := id + 1 })

/-- `Compiler::create_data`: name the blob `data_<n>` from the anonymous-data
counter (bumped first, as the Rust format argument runs before the call),
declare it local / non-writable / non-tls, define its contents, return the
handle. -/
def Compiler.create_data (c : Compiler) (data : List Nat) :
    Compiler × Except CompileErr Nat :=
  let id := c.data_id_counter
  let c := { c with data_id_counter := id + 1 }
  match c.module.declare_data ("data_" ++ toString id) .local_ false false with
  | (m, .error e) => ({ c with module := m }, .error e)
  | (m, .ok data_id) =>
      let c := { c with module := m }
      match c.module.define_data data_id data with
      | (m, .error e) => ({ c with module := m }, .error e)
      | (m, .ok ()) => ({ c with module := m }, .ok data_id)

/-- `Compiler::import_func`: build the signature, declare `name` with import
linkage, then `declare_func_in_func` — append a fresh per-body `FuncRef`
bound to the declared handle (no caching). -/
def Compiler.import_func (c : Compiler) (name : String) (params : List CType)
    (ret : Option CType) (f : FuncState) :
    Compiler × FuncState × Except CompileErr Nat :=
  let sig := make_sig params ret
  match c.module.declare_function name .import_ sig with
  | (m, .error e) => ({ c with module := m }, f, .error e)
  | (m, .ok func) =>
      let c := { c with module := m }
      let fref := f.funcRefs.length
      (c, { f with funcRefs := f.funcRefs ++ [func] }, .ok fref)

/-- `Compiler::create_var`: declare a writable local data symbol under the
given name, define it as `size_of::<f64>()` = 8 zero bytes, register it in the
variable store, return the handle. -/
def Compiler.create_var (c : Compiler) (name : String) :
    Compiler × Except CompileErr Nat :=
  match c.module.declare_data name .local_ true false with
  | (m, .error e) => ({ c with module := m }, .error e)
  | (m, .ok data_id) =>
      let c := { c with module := m }
      match c.module.define_data data_id (List.replicate 8 0) with
      | (m, .error e) => ({ c with module := m }, .error e)
      | (m, .ok ()) =>
          ({ c with module := m, vars := insertA c.vars name data_id }, .ok data_id)

/-- `Compiler::var_ptr`: the source indexes `self.vars[name]`, which panics
when `name` is absent (there is no `Result` channel here); on success it binds
the data symbol into the body (`declare_data_in_func`, a fresh per-body data
reference) and emits `global_value` at the target's pointer type. -/
def Compiler.var_ptr (c : Compiler) (name : String) (f : FuncState) :
    VOut (Nat × FuncState) :=
  match c.vars.lookup name with
  | none => .panic
  | some data_id =>
      let data_ref := f.dataRefs.length
      let f := { f with dataRefs := f.dataRefs ++ [data_id] }
      let (v, f) := f.emitV (.globalValue c.module.ptrTy data_ref)
      .ok (v, f)

/-- `Compiler::load_var`: address via `var_ptr`, then a load of `var_type`
from offset 0 with `MemFlags::new()`. -/
def Compiler.load_var (c : Compiler) (name : String) (var_type : CType)
    (f : FuncState) : VOut (Nat × FuncState) :=
  match c.var_ptr name f with
  | .panic => .panic
  | .err e => .err e
  | .ok (ptr, f) =>
      let (v, f) := f.emitV (.load var_type MemFlags.new ptr 0)
      .ok (v, f)

/-- `Compiler::store_var`: address via `var_ptr`, then a store of `val` at
offset 0 with `MemFlags::new()`. -/
def Compiler.store_var (c : Compiler) (name : String) (val : Nat)
    (f : FuncState) : VOut FuncState :=
  match c.var_ptr name f with
  | .panic => .panic
  | .err e => .err e
  | .ok (ptr, f) => .ok (f.emit (.store MemFlags.new val ptr 0))

/-- Little-endian byte encoding of `v` into `n` bytes. -/
def encodeLE : Nat → Nat → List Nat
  | 0, _ => []
  | n + 1, v => v % 256 :: encodeLE n (v / 256)

/-- Little-endian byte decoding. -/
def decodeLE : List Nat → Nat
  | [] => 0
  | b :: t => b + 256 * decodeLE t

/-- Overwrite the first `sz` bytes of a cell with the encoding of `v`. -/
def writeBytes (cell : List Nat) (sz : Nat) (v : Nat) : List Nat :=
  encodeLE sz v ++ cell.drop sz

/-- Read the first `sz` bytes of a cell as a value. -/
def readBytes (cell : List Nat) (sz : Nat) : Nat :=
  decodeLE (cell.take sz)

/-- A runtime SSA value: its type and its numeric content. -/
abbrev RVal := CType × Nat

/-- Runtime memory: data handle to cell contents. -/
abbrev Mem := List (Nat × List Nat)

/-- Update the cell of one data symbol. -/
def memUpdate (m : Mem) (id : Nat) (cell : List Nat) : Mem :=
  (id, cell) :: m.filter (fun p => p.1 != id)

/-- Modelled from the spec: the runtime memory a compiled body starts from is
the backend's defined data contents (the execution boundary itself is out of
scope for the layer). -/
def Backend.mem (b : Backend) : Mem :=
  b.dataDefined

/-- Modelled from the spec: runtime semantics of one emitted instruction of
the straight-line fragment this layer emits.  `drefs` is the body's table of
bound data symbols; values are looked up by SSA id; only offset-0 accesses
occur. -/
def evalInstr (drefs : List Nat) (st : List RVal × Mem) (i : Instr) :
    Option (List RVal × Mem) :=
  let (vals, mem) := st
  match i with
  | .iconst ty n => some (vals ++ [(ty, n % 256 ^ ty.bytes)], mem)
  | .globalValue ty gv =>
      match drefs.get? gv with
      | some data_id => some (vals ++ [(ty, data_id)], mem)
      | none => none
  | .load ty _ ptr offset =>
      if offset = 0 then
        match vals.get? ptr with
        | some (_, addr) =>
            match mem.lookup addr with
            | some cell => some (vals ++ [(ty, readBytes cell ty.bytes)], mem)
            | none => none
        | none => none
      else none
  | .store _ val ptr offset =>
      if offset = 0 then
        match vals.get? val, vals.get? ptr with
        | some (vty, v), some (_, addr) =>
            match mem.lookup addr with
            | some cell => some (vals, memUpdate mem addr (writeBytes cell vty.bytes v))
            | none => none
        | _, _ => none
      else none
  | _ => none

/-- Run a list of emitted instructions. -/
def evalInstrs (drefs : List Nat) (instrs : List Instr) (st : List RVal × Mem) :
    Option (List RVal × Mem) :=
  match instrs with
  | [] => some st
  | i :: rest =>
      match evalInstr drefs st i with
      | some st' => evalInstrs drefs rest st'
      | none => none

/-- Instructions of block `i` of a body. -/
def FuncState.blockInstrs (f : FuncState) (i : Nat) : List Instr :=
  match f.blocks.get? i with
  | some b => b.instrs
  | none => []

/-! ### Lemmas about the search, table and byte-level helpers -/

theorem findIdxBy_none {key : α → String} {l : List α} {k : String}
    (h : findIdxBy key l k = none) : ∀ a ∈ l, key a ≠ k := by
  induction l with
  | nil => simp
  | cons x t ih =>
    rw [findIdxBy] at h
    by_cases hx : key x = k
    · simp [hx] at h
    · rw [if_neg hx, Option.map_eq_none'] at h
      intro a ha
      rcases List.mem_cons.mp ha with rfl | ha
      · exact hx
      · exact ih h a ha

theorem findIdxBy_some {key : α → String} {l : List α} {k : String} {i : Nat}
    (h : findIdxBy key l k = some i) : ∃ a, l.get? i = some a ∧ key a = k := by
  induction l generalizing i with
  | nil => simp [findIdxBy] at h
  | cons x t ih =>
    rw [findIdxBy] at h
    by_cases hx : key x = k
    · rw [if_pos hx] at h
      obtain rfl : 0 = i := by simpa using h
      exact ⟨x, rfl, hx⟩
    · rw [if_neg hx] at h
      rcases Option.map_eq_some'.mp h with ⟨j, hj, rfl⟩
      obtain ⟨a, ha, hk⟩ := ih hj
      exact ⟨a, by simpa using ha, hk⟩

theorem findIdxBy_append_of_none {key : α → String} {l : List α} {k : String}
    (h : findIdxBy key l k = none) (x : α) :
    findIdxBy key (l ++ [x]) k = if key x = k then some l.length else none := by
  induction l with
  | nil => simp [findIdxBy]
  | cons y t ih =>
    rw [findIdxBy] at h
    by_cases hy : key y = k
    · simp [hy] at h
    · rw [if_neg hy, Option.map_eq_none'] at h
      rw [List.cons_append, findIdxBy, if_neg hy, ih h]
      by_cases hx : key x = k <;> simp [hx]

theorem lookup_filter_ne {l : List (String × Nat)} {k k' : String} (h : k' ≠ k) :
    (l.filter (fun p => p.1 != k)).lookup k' = l.lookup k' := by
  induction l with
  | nil => rfl
  | cons a t ih =>
    by_cases ha : a.1 = k
    · have h1 : (a.1 != k) = false := by simp [ha]
      have h2 : (k' == a.1) = false := by simp [ha, h]
      simp [List.filter_cons, h1, List.lookup, h2, ih]
    · have h1 : (a.1 != k) = true := by simp [ha]
      by_cases hk : k' = a.1
      · simp [List.filter_cons, h1, List.lookup, hk]
      · have h2 : (k' == a.1) = false := by simp [hk]
        simp [List.filter_cons, h1, List.lookup, h2, ih]

theorem lookup_insertA_self (l : List (String × Nat)) (k : String) (v : Nat) :
    (insertA l k v).lookup k = some v := by
  simp [insertA, List.lookup]

theorem lookup_insertA_ne (l : List (String × Nat)) {k k' : String} (h : k' ≠ k)
    (v : Nat) : (insertA l k v).lookup k' = l.lookup k' := by
  have h2 : (k' == k) = false := by simp [h]
  simp [insertA, List.lookup, h2, lookup_filter_ne h]

theorem encodeLE_length (n v : Nat) : (encodeLE n v).length = n := by
  induction n generalizing v with
  | zero => rfl
  | succ n ih => simp [encodeLE, ih]

theorem decodeLE_encodeLE (n v : Nat) : decodeLE (encodeLE n v) = v % 256 ^ n := by
  induction n generalizing v with
  | zero => simp [encodeLE, decodeLE, Nat.mod_one]
  | succ n ih => rw [encodeLE, decodeLE, ih, pow_succ', Nat.mod_mul]

theorem readBytes_writeBytes (cell : List Nat) (sz v : Nat) :
    readBytes (writeBytes cell sz v) sz = v % 256 ^ sz := by
  have h := List.take_left (encodeLE sz v) (cell.drop sz)
  rw [encodeLE_length] at h
  rw [readBytes, writeBytes, h, decodeLE_encodeLE]

/-! ### Lemmas about the backend operations -/

theorem declare_data_ok {b b' : Backend} {name : String} {lk : Linkage}
    {w t : Bool} {i : Nat} (h : b.declare_data name lk w t = (b', .ok i)) :
    b.findDataIdx name = none ∧ i = b.dataDecls.length ∧
    b' = { b with dataDecls := b.dataDecls ++ [⟨name, lk, w, t⟩] } := by
  unfold Backend.declare_data at h
  split at h
  · simp at h
  · next heq =>
      refine ⟨heq, ?_, ?_⟩ <;> · injection h with h1 h2; simp_all

theorem define_data_ok {b b' : Backend} {i : Nat} {contents : List Nat}
    (h : b.define_data i contents = (b', .ok ())) :
    b.dataDefined.lookup i = none ∧ i < b.dataDecls.length ∧
    b' = { b with dataDefined := (i, contents) :: b.dataDefined } := by
  unfold Backend.define_data at h
  split at h
  · simp at h
  · next heq =>
      split at h
      · next hlt =>
          injection h with h1 h2
          exact ⟨heq, hlt, h1.symm⟩
      · simp at h

theorem declare_function_of_not_found {b : Backend} {name : String}
    {lk : Linkage} {sig : Signature} (h : b.findFuncIdx name = none) :
    b.declare_function name lk sig =
      ({ b with funcDecls := b.funcDecls ++ [⟨name, lk, sig⟩] },
        .ok b.funcDecls.length) := by
  unfold Backend.declare_function
  rw [h]

/-! ### The claims -/

/-- C4 (counterexample): on a name never passed to `create_var`, `var_ptr`
does not surface an `UnknownVariableError` value — the map index panics. -/
theorem var_ops_unknown_name_cex :
    Compiler.var_ptr (Compiler.new (Backend.empty .i64)) "x"
        (FuncState.new "b" (make_sig [] none)) = .panic ∧
    Compiler.var_ptr (Compiler.new (Backend.empty .i64)) "x"
        (FuncState.new "b" (make_sig [] none)) ≠ .err .unknownVariable :=
  ⟨rfl, by decide⟩

/-- C4 (amended): for every name never registered in the variable store, each
of `var_ptr`, `load_var` and `store_var` panics (the `self.vars[name]` map
index aborts) rather than returning an `UnknownVariableError` error value. -/
theorem var_ops_unknown_name_panic (c : Compiler) (name : String) (ty : CType)
    (val : Nat) (f : FuncState) (h : c.vars.lookup name = none) :
    c.var_ptr name f = .panic ∧ c.load_var name ty f = .panic ∧
    c.store_var name val f = .panic := by
  refine ⟨?_, ?_, ?_⟩ <;>
    simp [Compiler.var_ptr, Compiler.load_var, Compiler.store_var, h]

/-- C4 (witness): the amended claim at the fresh compiler and the name y. -/
theorem var_ops_unknown_name_panic_witness :
    (Compiler.new (Backend.empty .i64)).vars.lookup "y" = none ∧
    ((Compiler.new (Backend.empty .i64)).var_ptr "y"
        (FuncState.new "b" (make_sig [] none)) = .panic ∧
      (Compiler.new (Backend.empty .i64)).load_var "y" .i64
        (FuncState.new "b" (make_sig [] none)) = .panic ∧
      (Compiler.new (Backend.empty .i64)).store_var "y" 0
        (FuncState.new "b" (make_sig [] none)) = .panic) :=
  ⟨rfl, var_ops_unknown_name_panic _ "y" .i64 0 _ rfl⟩

/-- C6: a successful `create_var name` declares a writable, local, non-tls
data symbol under exactly `name`, defines its contents as 8 zero bytes,
registers `name ↦ handle` in the variable store, and returns the handle
obtained at declaration. -/
theorem create_var_spec (c : Compiler) (name : String) (c' : Compiler)
    (d : Nat) (h : c.create_var name = (c', .ok d)) :
    c'.module.dataDecls.get? d = some ⟨name, .local_, true, false⟩ ∧
    c'.module.dataDefined.lookup d = some (List.replicate 8 0) ∧
    c'.vars = insertA c.vars name d ∧
    c'.vars.lookup name = some d ∧
    (c.module.declare_data name .local_ true false).2 = .ok d := by
  unfold Compiler.create_var at h
  split at h
  · simp at h
  · next m d0 hdecl =>
      dsimp only at h
      split at h
      · simp at h
      · next m2 hdef =>
          injection h with h1 h2
          obtain rfl : d0 = d := by simpa using h2
          obtain ⟨hfind, rfl, rfl⟩ := declare_data_ok hdecl
          obtain ⟨hnone, hlt, rfl⟩ := define_data_ok hdef
          subst h1
          refine ⟨?_, ?_, rfl, lookup_insertA_self .., by rw [hdecl]⟩
          · simp [List.get?_eq_getElem?, List.getElem?_concat_length]
          · simp [List.lookup]

/-- C6 (witness): `create_var` on a fresh compiler at the name v. -/
theorem create_var_spec_witness :
    ((Compiler.new (Backend.empty .i64)).create_var "v").1.module.dataDecls.get? 0 =
        some ⟨"v", .local_, true, false⟩ ∧
    ((Compiler.new (Backend.empty .i64)).create_var "v").1.module.dataDefined.lookup 0 =
        some (List.replicate 8 0) ∧
    ((Compiler.new (Backend.empty .i64)).create_var "v").1.vars =
        insertA (Compiler.new (Backend.empty .i64)).vars "v" 0 ∧
    ((Compiler.new (Backend.empty .i64)).create_var "v").1.vars.lookup "v" = some 0 ∧
    ((Compiler.new (Backend.empty .i64)).module.declare_data "v" .local_ true false).2 =
        .ok 0 :=
  create_var_spec (Compiler.new (Backend.empty .i64)) "v" _ 0 rfl

/-- C8: the anonymous-data counter and the variable-handle counter both start
at 0 in a fresh compiler; `new_var` hands out the current variable counter and
bumps exactly it; `create_data` bumps exactly the data counter (whether or not
the backend calls succeed) and never touches the variable counter. -/
theorem counters_independent (m : Backend) (c : Compiler) (data : List Nat) :
    (Compiler.new m).data_id_counter = 0 ∧
    (Compiler.new m).var_id_counter = 0 ∧
    c.new_var = (Variable.mk c.var_id_counter,
      { c with var_id_counter := c.var_id_counter + 1 }) ∧
    (c.create_data data).1.data_id_counter = c.data_id_counter + 1 ∧
    (c.create_data data).1.var_id_counter = c.var_id_counter := by
  refine ⟨rfl, rfl, rfl, ?_, ?_⟩ <;>
    · unfold Compiler.create_data
      dsimp only
      split
      · rfl
      · split <;> rfl

/-- C10: when `create_var` fails (backend rejects the declaration or the data
definition), the variable store mapping is left unchanged. -/
theorem create_var_failure_keeps_store (c : Compiler) (name : String)
    (c' : Compiler) (e : CompileErr) (h : c.create_var name = (c', .error e)) :
    c'.vars = c.vars := by
  unfold Compiler.create_var at h
  split at h
  · injection h with h1 h2; subst h1; rfl
  · dsimp only at h
    split at h
    · injection h with h1 h2; subst h1; rfl
    · simp at h

/-- C10 (witness): declaring x a second time fails with `DuplicateSymbolError`
and leaves the store unchanged. -/
theorem create_var_failure_keeps_store_witness :
    ((Compiler.new { Backend.empty .i64 with
        dataDecls := [⟨"x", .local_, true, false⟩] }).create_var "x").2 =
      .error .duplicateSymbol ∧
    ((Compiler.new { Backend.empty .i64 with
        dataDecls := [⟨"x", .local_, true, false⟩] }).create_var "x").1.vars =
      (Compiler.new { Backend.empty .i64 with
        dataDecls := [⟨"x", .local_, true, false⟩] }).vars :=
  ⟨rfl, create_var_failure_keeps_store _ "x" _ .duplicateSymbol rfl⟩

theorem create_data_ok_elim {c c1 : Compiler} {data : List Nat} {d : Nat}
    (h : c.create_data data = (c1, .ok d)) :
    c.module.findDataIdx ("data_" ++ toString c.data_id_counter) = none ∧
    d = c.module.dataDecls.length ∧
    c1 = { c with
      data_id_counter := c.data_id_counter + 1
      module := { c.module with
        dataDecls := c.module.dataDecls ++
          [⟨"data_" ++ toString c.data_id_counter, .local_, false, false⟩]
        dataDefined := (d, data) :: c.module.dataDefined } } := by
  unfold Compiler.create_data at h
  dsimp only at h
  split at h
  · simp at h
  · next m did hdecl =>
      split at h
      · simp at h
      · next m2 hdef =>
          injection h with h1 h2
          obtain rfl : did = d := by simpa using h2
          obtain ⟨hfind, rfl, rfl⟩ := declare_data_ok hdecl
          obtain ⟨hnone, hlt, rfl⟩ := define_data_ok hdef
          exact ⟨hfind, rfl, h1.symm⟩

/-- C7: a successful `create_data` declares a local, non-writable data symbol
deterministically named `data_<n>` from the next anonymous-data id, defines
its contents from the given bytes, and returns the handle; a second call with
the identical bytes yields a distinct handle under a distinct generated name
(no deduplication). -/
theorem create_data_spec (c : Compiler) (data : List Nat) (c1 : Compiler)
    (d1 : Nat) (h1 : c.create_data data = (c1, .ok d1)) :
    c1.module.dataDecls.get? d1 =
      some ⟨"data_" ++ toString c.data_id_counter, .local_, false, false⟩ ∧
    c1.module.dataDefined.lookup d1 = some data ∧
    c1.data_id_counter = c.data_id_counter + 1 ∧
    (∀ c2 d2, c1.create_data data = (c2, .ok d2) →
      d1 ≠ d2 ∧
      ∃ e1 e2, c2.module.dataDecls.get? d1 = some e1 ∧
        c2.module.dataDecls.get? d2 = some e2 ∧ e1.name ≠ e2.name) := by
  obtain ⟨hfind, rfl, rfl⟩ := create_data_ok_elim h1
  refine ⟨?_, ?_, rfl, ?_⟩
  · simp [List.get?_eq_getElem?, List.getElem?_concat_length]
  · simp [List.lookup]
  · intro c2 d2 h2
    obtain ⟨hfind2, rfl, rfl⟩ := create_data_ok_elim h2
    refine ⟨by simp, ?_⟩
    refine ⟨⟨"data_" ++ toString c.data_id_counter, .local_, false, false⟩,
      ⟨"data_" ++ toString (c.data_id_counter + 1), .local_, false, false⟩,
      ?_, ?_, ?_⟩
    · rw [List.get?_eq_getElem?, List.getElem?_append_left (by simp)]
      exact List.getElem?_concat_length _ _
    · rw [List.get?_eq_getElem?]
      exact List.getElem?_concat_length _ _
    · have hmem : (⟨"data_" ++ toString c.data_id_counter, .local_, false,
          false⟩ : DataDecl) ∈ c.module.dataDecls ++
          [⟨"data_" ++ toString c.data_id_counter, .local_, false, false⟩] := by
        simp
      have := findIdxBy_none hfind2 _ hmem
      simpa using this

/-- C7 (witness): two calls with bytes 1,2,3 on a fresh compiler yield the
distinct handles 0 and 1 under distinct generated names. -/
theorem create_data_no_dedup_witness :
    (0 : Nat) ≠ 1 ∧
    ∃ e1 e2,
      (((Compiler.new (Backend.empty .i64)).create_data [1, 2, 3]).1.create_data
          [1, 2, 3]).1.module.dataDecls.get? 0 = some e1 ∧
      (((Compiler.new (Backend.empty .i64)).create_data [1, 2, 3]).1.create_data
          [1, 2, 3]).1.module.dataDecls.get? 1 = some e2 ∧
      e1.name ≠ e2.name :=
  (create_data_spec (Compiler.new (Backend.empty .i64)) [1, 2, 3] _ 0
    rfl).2.2.2 _ 1 rfl

/-- C9: `import_func` leaves the function table, the variable store and both
counters unchanged; on success the returned in-body reference is fresh (the
next `FuncRef` slot, appended anew on every call, with no caching); and a
previously unseen name is declared to the backend with import linkage. -/
theorem import_func_frame_and_fresh (c : Compiler) (name : String)
    (params : List CType) (ret : Option CType) (f : FuncState) :
    (c.import_func name params ret f).1.functions = c.functions ∧
    (c.import_func name params ret f).1.vars = c.vars ∧
    (c.import_func name params ret f).1.data_id_counter = c.data_id_counter ∧
    (c.import_func name params ret f).1.var_id_counter = c.var_id_counter ∧
    (∀ f' ref, (c.import_func name params ret f).2 = (f', .ok ref) →
      ref = f.funcRefs.length ∧
      ∃ fid, f'.funcRefs = f.funcRefs ++ [fid]) ∧
    (c.module.findFuncIdx name = none →
      (c.import_func name params ret f).1.module.funcDecls =
        c.module.funcDecls ++ [⟨name, .import_, make_sig params ret⟩]) := by
  unfold Compiler.import_func
  dsimp only
  split
  · next m e hdecl =>
      refine ⟨rfl, rfl, rfl, rfl, ?_, ?_⟩
      · intro f' ref h
        injection h with h1 h2
        simp at h2
      · intro hnone
        rw [declare_function_of_not_found hnone] at hdecl
        injection hdecl with hm hr
        simp at hr
  · next m fid hdecl =>
      refine ⟨rfl, rfl, rfl, rfl, ?_, ?_⟩
      · intro f' ref h
        injection h with h1 h2
        injection h2 with h3
        exact ⟨h3.symm, fid, by rw [← h1]⟩
      · intro hnone
        rw [declare_function_of_not_found hnone] at hdecl
        injection hdecl with hm hr
        rw [← hm]

/-- C9 (witness): importing ext into a fresh body on a fresh compiler. -/
theorem import_func_frame_witness :
    ((Compiler.new (Backend.empty .i64)).import_func "ext" [] none
        (FuncState.new "b" (make_sig [] none))).1.functions = [] ∧
    ((0 : Nat) = (FuncState.new "b" (make_sig [] none)).funcRefs.length ∧
      ∃ fid, (((Compiler.new (Backend.empty .i64)).import_func "ext" [] none
          (FuncState.new "b" (make_sig [] none))).2.1).funcRefs =
        (FuncState.new "b" (make_sig [] none)).funcRefs ++ [fid]) ∧
    ((Compiler.new (Backend.empty .i64)).import_func "ext" [] none
        (FuncState.new "b" (make_sig [] none))).1.module.funcDecls =
      (Compiler.new (Backend.empty .i64)).module.funcDecls ++
        [⟨"ext", .import_, make_sig [] none⟩] := by
  have h := import_func_frame_and_fresh (Compiler.new (Backend.empty .i64))
    "ext" [] none (FuncState.new "b" (make_sig [] none))
  exact ⟨h.1, h.2.2.2.2.1 _ 0 rfl, h.2.2.2.2.2 rfl⟩

theorem compile_func_tr_ok {c c' : Compiler} {name : String}
    {params : List CType} {ret : Option CType} {lk : Linkage} {body : BodyFn}
    {tr : List Event} {fid : Nat}
    (h : compile_func_tr c name params ret lk body = (c', tr, .ok fid)) :
    ∃ m1 cb fb m2,
      c.module.declare_function name lk (make_sig params ret) = (m1, .ok fid) ∧
      body { c with module := m1 } (FuncState.new name (make_sig params ret)) fid
        = (cb, fb, .ok ()) ∧
      verify_function ((fb.seal_all_blocks).finalize) = .ok () ∧
      cb.module.define_function fid = (m2, .ok ()) ∧
      c' = { cb with module := m2, functions := insertA cb.functions name fid } ∧
      tr = [.declareFunction name lk (make_sig params ret), .invokeBody,
            .sealAllBlocks, .finalizeFunction, .verifyFunction,
            .defineFunction fid, .registerFunction name fid] := by
  unfold compile_func_tr at h
  dsimp only at h
  split at h
  · simp at h
  · next m1 fid0 hdecl =>
      split at h
      · simp at h
      · next cb fb hbody =>
          split at h
          · simp at h
          · next hver =>
              split at h
              · simp at h
              · next m2 hdef =>
                  injection h with h1 h2
                  injection h2 with h2 h3
                  obtain rfl : fid0 = fid := by simpa using h3
                  exact ⟨m1, cb, fb, m2, hdecl, hbody, hver, hdef, h1.symm,
                    h2.symm⟩

theorem compile_func_tr_err {c c' : Compiler} {name : String}
    {params : List CType} {ret : Option CType} {lk : Linkage} {body : BodyFn}
    {tr : List Event} {e : CompileErr}
    (h : compile_func_tr c name params ret lk body = (c', tr, .error e)) :
    (∃ m1, c.module.declare_function name lk (make_sig params ret)
        = (m1, .error e) ∧ c' = { c with module := m1 }) ∨
    (∃ m1 fid fb,
      c.module.declare_function name lk (make_sig params ret) = (m1, .ok fid) ∧
      body { c with module := m1 } (FuncState.new name (make_sig params ret)) fid
        = (c', fb, .error e)) ∨
    (∃ m1 fid fb,
      c.module.declare_function name lk (make_sig params ret) = (m1, .ok fid) ∧
      body { c with module := m1 } (FuncState.new name (make_sig params ret)) fid
        = (c', fb, .ok ()) ∧
      verify_function ((fb.seal_all_blocks).finalize) = .error e) ∨
    (∃ m1 fid cb fb m2,
      c.module.declare_function name lk (make_sig params ret) = (m1, .ok fid) ∧
      body { c with module := m1 } (FuncState.new name (make_sig params ret)) fid
        = (cb, fb, .ok ()) ∧
      verify_function ((fb.seal_all_blocks).finalize) = .ok () ∧
      cb.module.define_function fid = (m2, .error e) ∧
      c' = { cb with module := m2 }) := by
  unfold compile_func_tr at h
  dsimp only at h
  split at h
  · next m1 e0 hdecl =>
      injection h with h1 h2
      injection h2 with h2 h3
      obtain rfl : e0 = e := by simpa using h3
      exact Or.inl ⟨m1, hdecl, h1.symm⟩
  · next m1 fid hdecl =>
      split at h
      · next cb fb e0 hbody =>
          injection h with h1 h2
          injection h2 with h2 h3
          obtain rfl : cb = c' := h1
          obtain rfl : e0 = e := by simpa using h3
          exact Or.inr (Or.inl ⟨m1, fid, fb, hdecl, hbody⟩)
      · next cb fb hbody =>
          split at h
          · next hver =>
              injection h with h1 h2
              injection h2 with h2 h3
              obtain rfl : cb = c' := h1
              obtain rfl : _ = e := by simpa using h3
              exact Or.inr (Or.inr (Or.inl ⟨m1, fid, fb, hdecl, hbody, hver⟩))
          · next hver =>
              split at h
              · next m2 e0 hdef =>
                  injection h with h1 h2
                  injection h2 with h2 h3
                  obtain rfl : e0 = e := by simpa using h3
                  exact Or.inr (Or.inr (Or.inr
                    ⟨m1, fid, cb, fb, m2, hdecl, hbody, hver, hdef, h1.symm⟩))
              · simp at h

/-- C1: a successful `compile_func` performs its backend steps in exactly the
order declare, invoke the body callback, seal all blocks, finalize, verify,
define, register `name ↦ handle` in the function table — and the returned
handle is the one obtained at declaration. -/
theorem compile_func_pipeline_order (c : Compiler) (name : String)
    (params : List CType) (ret : Option CType) (lk : Linkage) (body : BodyFn)
    (c' : Compiler) (tr : List Event) (fid : Nat)
    (h : compile_func_tr c name params ret lk body = (c', tr, .ok fid)) :
    tr = [.declareFunction name lk (make_sig params ret), .invokeBody,
          .sealAllBlocks, .finalizeFunction, .verifyFunction,
          .defineFunction fid, .registerFunction name fid] ∧
    (c.module.declare_function name lk (make_sig params ret)).2 = .ok fid ∧
    c'.functions.lookup name = some fid := by
  obtain ⟨m1, cb, fb, m2, hdecl, hbody, hver, hdef, rfl, rfl⟩ :=
    compile_func_tr_ok h
  exact ⟨rfl, by rw [hdecl], lookup_insertA_self cb.functions name fid⟩

/-- C1 (witness): compiling f with a trivial body on a fresh compiler. -/
theorem compile_func_pipeline_order_witness :
    (compile_func_tr (Compiler.new (Backend.empty .i64)) "f" [] none .export_
        (fun c f _ => (c, f, .ok ()))).2.1 =
      [.declareFunction "f" .export_ (make_sig [] none), .invokeBody,
        .sealAllBlocks, .finalizeFunction, .verifyFunction, .defineFunction 0,
        .registerFunction "f" 0] ∧
    ((Compiler.new (Backend.empty .i64)).module.declare_function "f" .export_
        (make_sig [] none)).2 = .ok 0 ∧
    (compile_func_tr (Compiler.new (Backend.empty .i64)) "f" [] none .export_
        (fun c f _ => (c, f, .ok ()))).1.functions.lookup "f" = some 0 :=
  compile_func_pipeline_order (Compiler.new (Backend.empty .i64)) "f" [] none
    .export_ (fun c f _ => (c, f, .ok ())) _ _ 0 rfl

/-- C2: any failing `compile_func` (body error, verification failure or
definition failure) adds no entry for the compiled name to the function
table, provided the callback itself leaves that name's entry alone; and a
callback that leaves some block without a terminator makes `compile_func`
fail with `VerificationError`. -/
theorem compile_func_failure_not_registered (c : Compiler) (name : String)
    (params : List CType) (ret : Option CType) (lk : Linkage) (body : BodyFn)
    (hb : ∀ c₁ f₁ id₁, ((body c₁ f₁ id₁).1).functions.lookup name
        = c₁.functions.lookup name) :
    (∀ e, (compile_func c name params ret lk body).2 = .error e →
      (compile_func c name params ret lk body).1.functions.lookup name
        = c.functions.lookup name) ∧
    (∀ fid cb fb,
      (c.module.declare_function name lk (make_sig params ret)).2 = .ok fid →
      body { c with module := (c.module.declare_function name lk
          (make_sig params ret)).1 } (FuncState.new name (make_sig params ret))
          fid = (cb, fb, .ok ()) →
      fb.blocks.all Block.terminated = false →
      (compile_func c name params ret lk body).2 = .error .verification) := by
  constructor
  · intro e he
    rcases hE : compile_func_tr c name params ret lk body with ⟨c1, tr, r⟩
    unfold compile_func at he ⊢
    rw [hE] at he ⊢
    dsimp only at he ⊢
    subst he
    rcases compile_func_tr_err hE with ⟨m1, hdecl, rfl⟩ |
      ⟨m1, fid, fb, hdecl, hbody⟩ | ⟨m1, fid, fb, hdecl, hbody, hver⟩ |
      ⟨m1, fid, cb, fb, m2, hdecl, hbody, hver, hdef, rfl⟩
    · rfl
    · have hx := hb { c with module := m1 }
        (FuncState.new name (make_sig params ret)) fid
      rw [hbody] at hx
      exact hx
    · have hx := hb { c with module := m1 }
        (FuncState.new name (make_sig params ret)) fid
      rw [hbody] at hx
      exact hx
    · have hx := hb { c with module := m1 }
        (FuncState.new name (make_sig params ret)) fid
      rw [hbody] at hx
      exact hx
  · intro fid cb fb hdecl hbody hter
    rcases hD : c.module.declare_function name lk (make_sig params ret)
      with ⟨m1, r1⟩
    rw [hD] at hdecl hbody
    dsimp only at hdecl hbody
    subst hdecl
    have hv : verify_function ((fb.seal_all_blocks).finalize)
        = .error .verification := by
      unfold verify_function
      simp [FuncState.finalize, FuncState.seal_all_blocks, hter]
    unfold compile_func compile_func_tr
    dsimp only
    rw [hD]
    dsimp only
    rw [hbody]
    dsimp only
    rw [hv]

/-- C2 (witness): a body that creates one block and never terminates it fails
with `VerificationError` and registers nothing. -/
theorem compile_func_failure_not_registered_witness :
    (compile_func (Compiler.new (Backend.empty .i64)) "g" [] none .local_
        (fun c f _ => (c, (f.create_block).2, .ok ()))).2 =
      .error .verification ∧
    (compile_func (Compiler.new (Backend.empty .i64)) "g" [] none .local_
        (fun c f _ => (c, (f.create_block).2, .ok ()))).1.functions.lookup "g"
      = none := by
  have h := compile_func_failure_not_registered (Compiler.new (Backend.empty
    .i64)) "g" [] none .local_ (fun c f _ => (c, (f.create_block).2, .ok ()))
    (fun c₁ f₁ id₁ => rfl)
  have hfail := h.2 0 _ _ rfl rfl (by decide)
  exact ⟨hfail, (h.1 .verification hfail).trans rfl⟩

theorem declare_function_ok_find {b b' : Backend} {name : String}
    {lk : Linkage} {sig : Signature} {i : Nat}
    (h : b.declare_function name lk sig = (b', .ok i)) :
    b'.findFuncIdx name = some i ∧ b'.funcDefined = b.funcDefined := by
  unfold Backend.declare_function at h
  split at h
  · next j hfind =>
      split at h
      · split at h
        · injection h with h1 h2
          obtain rfl : j = i := by simpa using h2
          exact ⟨by rw [← h1]; exact hfind, by rw [← h1]⟩
        · simp at h
      · simp at h
  · next hfind =>
      injection h with h1 h2
      obtain rfl : b.funcDecls.length = i := by simpa using h2
      refine ⟨?_, by rw [← h1]⟩
      rw [← h1]
      show findIdxBy FuncDecl.name (b.funcDecls ++ [⟨name, lk, sig⟩]) name
        = some b.funcDecls.length
      rw [findIdxBy_append_of_none hfind]
      simp

theorem define_function_ok {b b' : Backend} {i : Nat}
    (h : b.define_function i = (b', .ok ())) :
    i ∉ b.funcDefined ∧ i < b.funcDecls.length ∧
    b' = { b with funcDefined := i :: b.funcDefined } := by
  unfold Backend.define_function at h
  split at h
  · simp at h
  · next hmem =>
      split at h
      · next hlt =>
          injection h with h1 h2
          exact ⟨hmem, hlt, h1.symm⟩
      · simp at h

theorem declare_function_of_defined {b : Backend} {name : String} {i : Nat}
    (hf : b.findFuncIdx name = some i) (hd : i ∈ b.funcDefined)
    (lk : Linkage) (sig : Signature) :
    b.declare_function name lk sig = (b, .error .duplicateSymbol) := by
  obtain ⟨d, hg, _⟩ := findIdxBy_some hf
  unfold Backend.declare_function
  rw [show Backend.findFuncIdx b name = some i from hf]
  simp only [hg]
  rw [if_neg]
  intro hcon
  exact hcon.2 hd

theorem declare_function_ok_cases {b b' : Backend} {name : String}
    {lk : Linkage} {sig : Signature} {i : Nat}
    (h : b.declare_function name lk sig = (b', .ok i)) :
    (∃ d, b.funcDecls.get? i = some d ∧ d.name = name) ∨
    (i = b.funcDecls.length ∧ b.findFuncIdx name = none) := by
  unfold Backend.declare_function at h
  split at h
  · next j hfind =>
      split at h
      · split at h
        · injection h with h1 h2
          obtain rfl : j = i := by simpa using h2
          exact Or.inl (findIdxBy_some hfind)
        · simp at h
      · simp at h
  · next hfind =>
      injection h with h1 h2
      obtain rfl : b.funcDecls.length = i := by simpa using h2
      exact Or.inr ⟨rfl, hfind⟩

/-- C3: after `compile_func` succeeds for a name, a second `compile_func` for
the same name fails with `DuplicateSymbolError`; and a second `compile_func`
for a distinct name never collides — the two backend handles differ and the
function table maps each name to its own handle (assuming the callbacks do
not themselves touch the compiled names' entries). -/
theorem compile_func_name_collisions (c : Compiler) (name1 name2 : String)
    (params1 params2 : List CType) (ret1 ret2 : Option CType)
    (l1 l2 : Linkage) (body1 body2 : BodyFn) (c1 : Compiler) (fid1 : Nat)
    (h1 : compile_func c name1 params1 ret1 l1 body1 = (c1, .ok fid1))
    (hb1 : ∀ c₁ f₁ id₁, ((body1 c₁ f₁ id₁).1).module.findFuncIdx name1
        = c₁.module.findFuncIdx name1) :
    (compile_func c1 name1 params2 ret2 l2 body2).2 = .error .duplicateSymbol ∧
    (name1 ≠ name2 →
      (∀ c₁ f₁ id₁ cres fres r, body2 c₁ f₁ id₁ = (cres, fres, r) →
        cres.functions.lookup name1 = c₁.functions.lookup name1) →
      ∀ c2 fid2, compile_func c1 name2 params2 ret2 l2 body2 = (c2, .ok fid2) →
      fid1 ≠ fid2 ∧ c2.functions.lookup name1 = some fid1 ∧
        c2.functions.lookup name2 = some fid2) := by
  rcases hE : compile_func_tr c name1 params1 ret1 l1 body1 with ⟨c1', tr, r⟩
  unfold compile_func at h1
  rw [hE] at h1
  dsimp only at h1
  injection h1 with h1a h1b
  rw [h1a, h1b] at hE
  obtain ⟨m1, cb, fb, m2, hdecl1, hbody1, hver1, hdef1, hc1, htr⟩ :=
    compile_func_tr_ok hE
  obtain ⟨hfindm1, -⟩ := declare_function_ok_find hdecl1
  have hfindcb : cb.module.findFuncIdx name1 = some fid1 := by
    have hx := hb1 { c with module := m1 }
      (FuncState.new name1 (make_sig params1 ret1)) fid1
    rw [hbody1] at hx
    exact hx.trans hfindm1
  obtain ⟨hnot1, hlt1, hm2⟩ := define_function_ok hdef1
  have hmodc1 : c1.module = m2 := by rw [hc1]
  have hfunsc1 : c1.functions = insertA cb.functions name1 fid1 := by rw [hc1]
  have hfindc1 : c1.module.findFuncIdx name1 = some fid1 := by
    rw [hmodc1, hm2]
    exact hfindcb
  have hmem : fid1 ∈ c1.module.funcDefined := by
    rw [hmodc1, hm2]
    exact List.mem_cons_self _ _
  have hdup := declare_function_of_defined hfindc1 hmem l2
    (make_sig params2 ret2)
  constructor
  · unfold compile_func compile_func_tr
    dsimp only
    rw [hdup]
  · intro hne hb2 c2 fid2 h2
    rcases hE2 : compile_func_tr c1 name2 params2 ret2 l2 body2
      with ⟨c2', tr2, r2⟩
    unfold compile_func at h2
    rw [hE2] at h2
    dsimp only at h2
    injection h2 with h2a h2b
    rw [h2a, h2b] at hE2
    obtain ⟨m1', cb2, fb2, m2', hdecl2, hbody2, hver2, hdef2, hc2, htr2⟩ :=
      compile_func_tr_ok hE2
    obtain ⟨d1, hg1, hn1⟩ := findIdxBy_some hfindc1
    refine ⟨?_, ?_, ?_⟩
    · rcases declare_function_ok_cases hdecl2 with ⟨d2, hg2, hn2⟩ | ⟨hlen, -⟩
      · intro hcon
        subst hcon
        rw [hg1] at hg2
        injection hg2 with hg2
        subst hg2
        exact hne (hn1.symm.trans hn2)
      · intro hcon
        rw [List.get?_eq_getElem?] at hg1
        rcases List.getElem?_eq_some.mp hg1 with ⟨hl, -⟩
        rw [hcon, hlen] at hl
        exact absurd hl (lt_irrefl _)
    · have hx := hb2 _ _ _ _ _ _ hbody2
      rw [hc2]
      show (insertA cb2.functions name2 fid2).lookup name1 = some fid1
      rw [lookup_insertA_ne _ hne, hx]
      show c1.functions.lookup name1 = some fid1
      rw [hfunsc1]
      exact lookup_insertA_self cb.functions name1 fid1
    · rw [hc2]
      exact lookup_insertA_self cb2.functions name2 fid2

/-- C3 (witness): compiling f twice collides with `DuplicateSymbolError`;
compiling f then g yields handles 0 and 1 and both table entries. -/
theorem compile_func_name_collisions_witness :
    (compile_func ((compile_func (Compiler.new (Backend.empty .i64)) "f" []
        none .export_ (fun c f _ => (c, f, .ok ()))).1) "f" [] none .export_
        (fun c f _ => (c, f, .ok ()))).2 = .error .duplicateSymbol ∧
    ((0 : Nat) ≠ 1 ∧
      (compile_func ((compile_func (Compiler.new (Backend.empty .i64)) "f" []
          none .export_ (fun c f _ => (c, f, .ok ()))).1) "g" [] none .export_
          (fun c f _ => (c, f, .ok ()))).1.functions.lookup "f" = some 0 ∧
      (compile_func ((compile_func (Compiler.new (Backend.empty .i64)) "f" []
          none .export_ (fun c f _ => (c, f, .ok ()))).1) "g" [] none .export_
          (fun c f _ => (c, f, .ok ()))).1.functions.lookup "g" = some 1) := by
  have h := compile_func_name_collisions (Compiler.new (Backend.empty .i64))
    "f" "g" [] [] none none .export_ .export_
    (fun c f _ => (c, f, .ok ())) (fun c f _ => (c, f, .ok ())) _ 0 rfl
    (fun c₁ f₁ id₁ => rfl)
  exact ⟨h.1, h.2 (by decide)
    (fun c₁ f₁ id₁ cres fres r hq => by cases hq; rfl) _ 1 rfl⟩

/-- C5: after `create_var name` on a fresh compiler, `store_var name V` then
`load_var name T` — in the same function body, or the store in one body and
the load in a later body with memory threaded between them — evaluates to a
loaded value equal to `V`, for every value `V` representable in `T` (which is
at most the 8-byte backing cell). -/
theorem store_load_round_trip (pty : CType) (name fname gname : String)
    (T : CType) (V : Nat) (hV : V < 256 ^ T.bytes) :
    ∀ c1, (Compiler.new (Backend.empty pty)).create_var name = (c1, .ok 0) →
    (∀ f1 rv f2,
      c1.store_var name 0
          ((FuncState.new fname (make_sig [T] none)).create_block.2.switch_to_block 0)
          = .ok f1 →
      c1.load_var name T f1 = .ok (rv, f2) →
      ∃ vals mem,
        evalInstrs f2.dataRefs (f2.blockInstrs 0) ([(T, V)], c1.module.mem)
          = some (vals, mem) ∧
        vals.get? rv = some (T, V)) ∧
    (∀ f1 rv fY2,
      c1.store_var name 0
          ((FuncState.new fname (make_sig [T] none)).create_block.2.switch_to_block 0)
          = .ok f1 →
      c1.load_var name T
          ((FuncState.new gname (make_sig [] none)).create_block.2.switch_to_block 0)
          = .ok (rv, fY2) →
      ∃ valsX memX valsY memY,
        evalInstrs f1.dataRefs (f1.blockInstrs 0) ([(T, V)], c1.module.mem)
          = some (valsX, memX) ∧
        evalInstrs fY2.dataRefs (fY2.blockInstrs 0) ([], memX)
          = some (valsY, memY) ∧
        valsY.get? rv = some (T, V)) := by
  intro c1 h
  have hcomp : (Compiler.new (Backend.empty pty)).create_var name =
      (Compiler.mk (Backend.mk pty [] [] [⟨name, .local_, true, false⟩]
        [(0, List.replicate 8 0)]) 0 0 [(name, 0)] [], .ok 0) := rfl
  rw [hcomp] at h
  injection h with h1 h2
  subst h1
  set C : Compiler := Compiler.mk (Backend.mk pty [] []
    [⟨name, .local_, true, false⟩] [(0, List.replicate 8 0)]) 0 0
    [(name, 0)] [] with hC
  have hlk : C.vars.lookup name = some 0 := by
    show List.lookup name [(name, 0)] = some 0
    simp [List.lookup]
  have hsv : C.store_var name 0
      ((FuncState.new fname (make_sig [T] none)).create_block.2.switch_to_block 0) =
      .ok ⟨fname, make_sig [T] none,
        [⟨[.globalValue pty 0, .store MemFlags.new 0 1 0]⟩], 0, [0], [], 2,
        false, false⟩ := by
    unfold Compiler.store_var Compiler.var_ptr
    rw [hlk]
    rfl
  have hld : C.load_var name T
      (⟨fname, make_sig [T] none,
        [⟨[.globalValue pty 0, .store MemFlags.new 0 1 0]⟩], 0, [0], [], 2,
        false, false⟩ : FuncState) =
      .ok (3, ⟨fname, make_sig [T] none,
        [⟨[.globalValue pty 0, .store MemFlags.new 0 1 0, .globalValue pty 1,
          .load T MemFlags.new 2 0]⟩], 0, [0, 0], [], 4, false, false⟩) := by
    unfold Compiler.load_var Compiler.var_ptr
    rw [hlk]
    rfl
  have hldY : C.load_var name T
      ((FuncState.new gname (make_sig [] none)).create_block.2.switch_to_block 0) =
      .ok (1, ⟨gname, make_sig [] none,
        [⟨[.globalValue pty 0, .load T MemFlags.new 0 0]⟩], 0, [0], [], 2,
        false, false⟩) := by
    unfold Compiler.load_var Compiler.var_ptr
    rw [hlk]
    rfl
  constructor
  · intro f1 rv f2 h2 h3
    rw [hsv] at h2
    injection h2 with h2
    subst h2
    rw [hld] at h3
    injection h3 with h3
    injection h3 with h3a h3b
    subst h3a
    subst h3b
    refine ⟨[(T, V), (pty, 0), (pty, 0),
      (T, readBytes (writeBytes (List.replicate 8 0) T.bytes V) T.bytes)],
      [(0, writeBytes (List.replicate 8 0) T.bytes V)], rfl, ?_⟩
    rw [readBytes_writeBytes, Nat.mod_eq_of_lt hV]
    rfl
  · intro f1 rv fY2 h2 h3
    rw [hsv] at h2
    injection h2 with h2
    subst h2
    rw [hldY] at h3
    injection h3 with h3
    injection h3 with h3a h3b
    subst h3a
    subst h3b
    refine ⟨[(T, V), (pty, 0)],
      [(0, writeBytes (List.replicate 8 0) T.bytes V)],
      [(pty, 0),
        (T, readBytes (writeBytes (List.replicate 8 0) T.bytes V) T.bytes)],
      [(0, writeBytes (List.replicate 8 0) T.bytes V)], rfl, rfl, ?_⟩
    rw [readBytes_writeBytes, Nat.mod_eq_of_lt hV]
    rfl

/-- C5 (witness): the round trip at type i64 with value 5 in both scenarios. -/
theorem store_load_round_trip_witness :
    (5 : Nat) < 256 ^ CType.i64.bytes ∧
    (∃ vals mem,
      evalInstrs [0, 0]
        [.globalValue .i64 0, .store MemFlags.new 0 1 0, .globalValue .i64 1,
          .load .i64 MemFlags.new 2 0]
        ([(.i64, 5)], [(0, List.replicate 8 0)]) = some (vals, mem) ∧
      vals.get? 3 = some (.i64, 5)) ∧
    (∃ valsX memX valsY memY,
      evalInstrs [0] [.globalValue .i64 0, .store MemFlags.new 0 1 0]
        ([(.i64, 5)], [(0, List.replicate 8 0)]) = some (valsX, memX) ∧
      evalInstrs [0] [.globalValue .i64 0, .load .i64 MemFlags.new 0 0]
        ([], memX) = some (valsY, memY) ∧
      valsY.get? 1 = some (.i64, 5)) := by
  have h := store_load_round_trip .i64 "x" "f" "g" .i64 5 (by decide) _ rfl
  exact ⟨by decide, h.1 _ 3 _ rfl rfl, h.2 _ 1 _ rfl rfl⟩

end ClifBuilder
